import Mathlib

/-!
A shallow embedding of `picamera-webthing.py`, the single source file of the
picamera-webthing repository, together with proofs about the embedded
operations.

The program wraps a Raspberry Pi camera (the `picamera` handle) and an SI7021
I2C sensor behind Web Thing properties.  The external collaborators (the
`picamera` driver, the SMBus driver, the tornado ioloop and the webthing
serving layer) are modelled as parameters: a hardware attribute assignment
either yields a new hardware state or raises, a bus primitive either yields a
byte or raises.  Python floats are modelled as rationals, Python values that
flow through the property layer as a `PyVal` sum of strings and numbers, and
a raised exception as an explicit `exn` outcome.
-/

namespace PiCamWT

/-- A Python value as it flows through the Thing property layer:
either a string or a number (float). -/
inductive PyVal where
  | str (s : String)
  | num (q : ℚ)
  deriving DecidableEq, Repr

/-- Outcome of a Python statement touching the hardware handle: either a
result or a raised exception (caught by the `try`/`except` at the call site). -/
inductive HwOutcome (α : Type) where
  | ok (a : α)
  | exn
  deriving DecidableEq, Repr

/-- The mutable attributes of the `picamera.PiCamera` handle that the facade
reads and writes (lines 159-217 of the source). -/
structure CameraState where
  resolution : Nat × Nat
  framerate : ℚ
  exposure_mode : String
  deriving DecidableEq, Repr

/-- The cached config fields of the `PiCameraWebThing` object together with
the hardware handle: `self.camera`, `self.resolution`, `self.framerate`,
`self.exposure_mode`. -/
structure FacadeState where
  camera : CameraState
  resolution : PyVal
  framerate : PyVal
  exposure_mode : PyVal
  deriving DecidableEq, Repr

/-- Embedding of `set_resolution` (source lines 173-181).  The behaviour of
the external `picamera` attribute assignment is a parameter `hwAssign`: it
either returns the new hardware state or raises.  Under the lock, the code
tries the hardware assignment; on success it updates the cached field and
returns `True`; the `except` branch logs and returns `False`. -/
def set_resolution (st : FacadeState) (v : PyVal)
    (hwAssign : CameraState → PyVal → HwOutcome CameraState) :
    Bool × FacadeState :=
  match hwAssign st.camera v with
  | .ok cam => (true, { st with camera := cam, resolution := v })
  | .exn => (false, st)

/-- Embedding of `set_framerate` (source lines 191-199), same shape as
`set_resolution`. -/
def set_framerate (st : FacadeState) (v : PyVal)
    (hwAssign : CameraState → PyVal → HwOutcome CameraState) :
    Bool × FacadeState :=
  match hwAssign st.camera v with
  | .ok cam => (true, { st with camera := cam, framerate := v })
  | .exn => (false, st)

/-- Embedding of `set_exposure_mode` (source lines 208-217), same shape as
`set_resolution`. -/
def set_exposure_mode (st : FacadeState) (v : PyVal)
    (hwAssign : CameraState → PyVal → HwOutcome CameraState) :
    Bool × FacadeState :=
  match hwAssign st.camera v with
  | .ok cam => (true, { st with camera := cam, exposure_mode := v })
  | .exn => (false, st)

/-- Claim C1: for every external write of resolution, framerate or exposure
mode, if applying the value to the hardware handle raises, the setter returns
`False` and the cached config field (indeed the whole facade state) is left
exactly as it was; if applying succeeds, the setter returns `True` and the
cached field equals the written value. -/
theorem setters_atomic_on_failure (st : FacadeState) (v : PyVal)
    (f : CameraState → PyVal → HwOutcome CameraState) :
    (f st.camera v = .exn →
      set_resolution st v f = (false, st) ∧
      set_framerate st v f = (false, st) ∧
      set_exposure_mode st v f = (false, st)) ∧
    (∀ cam, f st.camera v = .ok cam →
      (set_resolution st v f).1 = true ∧
      (set_resolution st v f).2.resolution = v ∧
      (set_framerate st v f).1 = true ∧
      (set_framerate st v f).2.framerate = v ∧
      (set_exposure_mode st v f).1 = true ∧
      (set_exposure_mode st v f).2.exposure_mode = v) := by
  constructor
  · intro h
    simp [set_resolution, set_framerate, set_exposure_mode, h]
  · intro cam h
    simp [set_resolution, set_framerate, set_exposure_mode, h]

/-- A concrete facade state used by closed instances below: the default
configuration (640x480, 1 fps, auto exposure). -/
def st0 : FacadeState :=
  { camera := { resolution := (640, 480), framerate := 1, exposure_mode := "auto" }
  , resolution := .str "640x480"
  , framerate := .num 1
  , exposure_mode := .str "auto" }

/-- A hardware assignment stub that always raises. -/
def hwAlwaysExn : CameraState → PyVal → HwOutcome CameraState :=
  fun _ _ => .exn

/-- A hardware assignment stub that accepts any framerate number. -/
def hwAcceptFramerate : CameraState → PyVal → HwOutcome CameraState :=
  fun cam v =>
    match v with
    | .num q => .ok { cam with framerate := q }
    | .str _ => .exn

/-- Closed instance of `setters_atomic_on_failure`: at the default state, a
raising hardware write leaves the state untouched and reports failure, and an
accepted framerate write caches the written value. -/
theorem setters_atomic_on_failure_witness :
    set_resolution st0 (.str "999x999") hwAlwaysExn = (false, st0) ∧
    (set_framerate st0 (.num 5) hwAcceptFramerate).2.framerate = .num 5 := by
  refine ⟨((setters_atomic_on_failure st0 (.str "999x999") hwAlwaysExn).1 rfl).1, ?_⟩
  exact (((setters_atomic_on_failure st0 (.num 5) hwAcceptFramerate).2
    { st0.camera with framerate := 5 } rfl).2.2).2.1

/-- The behaviour of the I2C bus during one `get_si7021_values` call
(source lines 367-411): the outcome of each bus primitive the function
issues, in program order.  `openBus` and the writes are `true` when the call
succeeds; a read is `some b` when it returns byte `b` and `none` when it
raises. -/
structure BusBehavior where
  openBus : Bool
  writeF5 : Bool
  readH0 : Option Nat
  readH1 : Option Nat
  writeF3 : Bool
  readT0 : Option Nat
  readT1 : Option Nat
  deriving DecidableEq, Repr

/-- Embedding of `get_si7021_values` (source lines 367-411).  `temperature`
and `humidity` start as `None`; the single `try` block opens the bus, runs
the humidity phase (write 0xF5, read two bytes, convert), then the
temperature phase (write 0xF3, read two bytes, convert to Celsius then to
Fahrenheit); any raising primitive jumps to the `except` branch, which logs,
so the function returns whatever the two variables hold at that point. -/
def get_si7021_values (b : BusBehavior) : Option ℚ × Option ℚ :=
  if !b.openBus then (none, none) else
  if !b.writeF5 then (none, none) else
  match b.readH0 with
  | none => (none, none)
  | some d0 =>
  match b.readH1 with
  | none => (none, none)
  | some d1 =>
  let humidity : ℚ := ((d0 : ℚ) * 256 + (d1 : ℚ)) * 125 / 65536 - 6
  if !b.writeF3 then (none, some humidity) else
  match b.readT0 with
  | none => (none, some humidity)
  | some e0 =>
  match b.readT1 with
  | none => (none, some humidity)
  | some e1 =>
  let tc : ℚ := ((e0 : ℚ) * 256 + (e1 : ℚ)) * (17572 / 100) / 65536 - 4685 / 100
  (some (tc * (18 / 10) + 32), some humidity)

/-- One iteration of `sensor_loop` (source lines 420-439): when the sensor is
enabled it calls `get_si7021_values`, then pushes temperature and humidity
into their property values independently, each only when it is not `None`.
The result is the pair of pushed updates (`none` = nothing pushed for that
property). -/
def sensor_iteration (enabled : Bool) (b : BusBehavior) : Option ℚ × Option ℚ :=
  if enabled then get_si7021_values b else (none, none)

/-- `true` when every bus primitive of the transaction succeeded. -/
def busAllOk (b : BusBehavior) : Bool :=
  b.openBus && b.writeF5 && b.readH0.isSome && b.readH1.isSome &&
    b.writeF3 && b.readT0.isSome && b.readT1.isSome

/-- `true` when the humidity phase (bus open, humidity command, two humidity
byte reads) succeeded. -/
def humidityPhaseOk (b : BusBehavior) : Bool :=
  b.openBus && b.writeF5 && b.readH0.isSome && b.readH1.isSome

/-- A bus behaviour whose humidity phase succeeds with bytes 0x20, 0x00 and
whose temperature command write then raises. -/
def busTempWriteFails : BusBehavior :=
  { openBus := true, writeF5 := true, readH0 := some 32, readH1 := some 0
  , writeF3 := false, readT0 := none, readT1 := none }

/-- Claim C3 counterexample: the claim says a bus error anywhere in the
two-phase transaction makes the iteration push neither value, but when the
temperature-phase command write raises after a successful humidity phase
(bytes 0x20, 0x00), the iteration still pushes the humidity value 77/8. -/
theorem sensor_iteration_pushes_humidity_despite_bus_error :
    busAllOk busTempWriteFails = false ∧
    sensor_iteration true busTempWriteFails = (none, some (77 / 8)) := by
  constructor
  · rfl
  · show get_si7021_values busTempWriteFails = (none, some (77 / 8))
    unfold get_si7021_values busTempWriteFails
    norm_num

/-- Claim C3 (amended): in a sensor-loop iteration, humidity is pushed exactly
when the humidity phase of the transaction succeeded — even if the subsequent
temperature phase fails — temperature is pushed exactly when the whole
transaction succeeded, and when the humidity phase itself fails nothing is
pushed at all. -/
theorem sensor_iteration_pushes_per_phase (b : BusBehavior) :
    ((sensor_iteration true b).2.isSome = humidityPhaseOk b) ∧
    ((sensor_iteration true b).1.isSome = busAllOk b) ∧
    (humidityPhaseOk b = false → sensor_iteration true b = (none, none)) := by
  obtain ⟨o, w5, h0, h1, w3, t0, t1⟩ := b
  simp only [sensor_iteration, if_true, get_si7021_values, humidityPhaseOk, busAllOk]
  cases o <;> cases w5 <;> cases h0 <;> cases h1 <;> cases w3 <;> cases t0 <;> cases t1 <;>
    simp

/-- Closed instance of `sensor_iteration_pushes_per_phase` at a failing
humidity phase: when the very first bus primitive raises, nothing is pushed. -/
theorem sensor_iteration_pushes_per_phase_witness :
    sensor_iteration true
      { openBus := false, writeF5 := false, readH0 := none, readH1 := none
      , writeF3 := false, readT0 := none, readT1 := none } = (none, none) :=
  (sensor_iteration_pushes_per_phase
    { openBus := false, writeF5 := false, readH0 := none, readH1 := none
    , writeF3 := false, readT0 := none, readT1 := none }).2.2 rfl

/-- Claim C5: whenever the transaction succeeds with humidity bytes
`(d0, d1)` and temperature bytes `(e0, e1)`, the returned humidity is
`((d0*256 + d1) * 125 / 65536) - 6` and the returned temperature in degrees
Fahrenheit is `(((e0*256 + e1) * 175.72 / 65536) - 46.85) * 1.8 + 32`; in
particular for humidity bytes 0x20, 0x00 the humidity is
`((0x20*256 + 0x00) * 125 / 65536) - 6 = 77/8`. -/
theorem si7021_conversion_formula (d0 d1 e0 e1 : Nat) :
    get_si7021_values
      { openBus := true, writeF5 := true, readH0 := some d0, readH1 := some d1
      , writeF3 := true, readT0 := some e0, readT1 := some e1 } =
      (some ((((e0 : ℚ) * 256 + (e1 : ℚ)) * (17572 / 100) / 65536 - 4685 / 100)
          * (18 / 10) + 32),
       some (((d0 : ℚ) * 256 + (d1 : ℚ)) * 125 / 65536 - 6)) ∧
    ((32 : ℚ) * 256 + 0) * 125 / 65536 - 6 = 77 / 8 := by
  constructor
  · rfl
  · norm_num

/-- The character of a single decimal digit, as Python's int formatting
writes it. -/
def digitChar (n : Nat) : Char := Char.ofNat (48 + n)

/-- The decimal digits of a natural number, most significant first: the
embedding of Python's str formatting of a nonnegative int, as used by
`get_resolution`'s "WxH" formatting (source line 169). -/
def natToDigits (n : Nat) : List Char :=
  if _h : n < 10 then [digitChar n]
  else natToDigits (n / 10) ++ [digitChar (n % 10)]
decreasing_by exact Nat.div_lt_self (by omega) (by omega)

/-- Python str of a nonnegative int. -/
def natRepr (n : Nat) : String := String.mk (natToDigits n)

/-- The numeric value of a decimal digit character, `none` for any other
character (where Python's int conversion raises). -/
def digitVal (c : Char) : Option Nat :=
  if 48 ≤ c.toNat ∧ c.toNat ≤ 57 then some (c.toNat - 48) else none

/-- Left-to-right accumulation of decimal digits, the embedding of Python's
int conversion on a digit string. -/
def parseDigitsAux (acc : Nat) : List Char → Option Nat
  | [] => some acc
  | c :: cs =>
    match digitVal c with
    | some d => parseDigitsAux (acc * 10 + d) cs
    | none => none

/-- Embedding of Python int(s) for a nonnegative decimal numeral: fails on
the empty string and on any non-digit character. -/
def parseNatNum (cs : List Char) : Option Nat :=
  if cs.isEmpty then none else parseDigitsAux 0 cs

/-- Embedding of Python's str.split with a one-character separator. -/
def splitOnChar (sep : Char) : List Char → List (List Char)
  | [] => [[]]
  | c :: cs =>
    match splitOnChar sep cs with
    | [] => [[c]]
    | g :: gs => if c = sep then [] :: g :: gs else (c :: g) :: gs

/-- The resolution parse performed by the hardware layer on a "WxH" string:
split on the letter x and convert both parts with int. -/
def parse_resolution (s : String) : Option (Nat × Nat) :=
  match splitOnChar 'x' s.data with
  | [a, b] =>
    match parseNatNum a, parseNatNum b with
    | some w, some h => some (w, h)
    | _, _ => none
  | _ => none

/-- Embedding of the "WxH" formatting of `get_resolution`
(source line 169). -/
def format_resolution (w h : Nat) : String := natRepr w ++ "x" ++ natRepr h

/-- Embedding of `get_resolution` (source lines 159-170): under the lock,
read the width and height from the hardware handle, then format them as
"WxH". -/
def get_resolution (st : FacadeState) : String :=
  format_resolution st.camera.resolution.1 st.camera.resolution.2

/-- Model of the external picamera resolution assignment under Claim C4's
assumption that the hardware stores the requested width and height
unchanged: the handle accepts a "WxH" string, splits it on the letter x,
converts both parts with int and stores the pair; anything else raises. -/
def hwAssignResolution (cam : CameraState) (v : PyVal) : HwOutcome CameraState :=
  match v with
  | .str s =>
    match parse_resolution s with
    | some wh => .ok { cam with resolution := wh }
    | none => .exn
  | .num _ => .exn

theorem digitVal_digitChar (d : Nat) (h : d < 10) :
    digitVal (digitChar d) = some d := by
  interval_cases d <;> rfl

theorem digitChar_ne_x (d : Nat) (h : d < 10) : digitChar d ≠ 'x' := by
  interval_cases d <;> decide

theorem natToDigits_mem (n : Nat) :
    ∀ c ∈ natToDigits n, ∃ d, d < 10 ∧ c = digitChar d := by
  induction n using Nat.strong_induction_on with
  | _ n ih =>
    intro c hc
    rw [natToDigits] at hc
    by_cases h : n < 10
    · rw [dif_pos h] at hc
      simp only [List.mem_singleton] at hc
      exact ⟨n, h, hc⟩
    · rw [dif_neg h] at hc
      rcases List.mem_append.mp hc with h1 | h2
      · exact ih (n / 10) (Nat.div_lt_self (by omega) (by omega)) c h1
      · simp only [List.mem_singleton] at h2
        exact ⟨n % 10, Nat.mod_lt _ (by omega), h2⟩

theorem natToDigits_ne_nil (n : Nat) : natToDigits n ≠ [] := by
  rw [natToDigits]
  split <;> simp

theorem parseDigitsAux_append (l1 l2 : List Char) (acc : Nat) :
    parseDigitsAux acc (l1 ++ l2) =
      match parseDigitsAux acc l1 with
      | some a => parseDigitsAux a l2
      | none => none := by
  induction l1 generalizing acc with
  | nil => rfl
  | cons c cs ih =>
    simp only [List.cons_append, parseDigitsAux]
    cases digitVal c with
    | none => rfl
    | some d => exact ih _

theorem parseDigitsAux_natToDigits (n : Nat) :
    ∀ acc, parseDigitsAux acc (natToDigits n) =
      some (acc * 10 ^ (natToDigits n).length + n) := by
  induction n using Nat.strong_induction_on with
  | _ n ih =>
    intro acc
    rw [natToDigits]
    by_cases h : n < 10
    · rw [dif_pos h]
      simp [parseDigitsAux, digitVal_digitChar n h]
    · rw [dif_neg h]
      rw [parseDigitsAux_append]
      rw [ih (n / 10) (Nat.div_lt_self (by omega) (by omega)) acc]
      have hm : n % 10 < 10 := Nat.mod_lt _ (by omega)
      simp only [parseDigitsAux, digitVal_digitChar (n % 10) hm,
        List.length_append, List.length_singleton]
      refine congrArg some ?_
      have h2 : (acc * 10 ^ (natToDigits (n / 10)).length + n / 10) * 10 + n % 10
          = acc * 10 ^ ((natToDigits (n / 10)).length + 1)
            + (10 * (n / 10) + n % 10) := by ring
      rw [h2, Nat.div_add_mod]

theorem parseNatNum_natToDigits (n : Nat) :
    parseNatNum (natToDigits n) = some n := by
  rw [parseNatNum, if_neg]
  · have := parseDigitsAux_natToDigits n 0
    simpa using this
  · simp [List.isEmpty_iff, natToDigits_ne_nil]

theorem splitOnChar_ne_nil (sep : Char) (l : List Char) :
    splitOnChar sep l ≠ [] := by
  cases l with
  | nil => simp [splitOnChar]
  | cons c cs =>
    simp only [splitOnChar]
    split <;> [simp; split <;> simp]

theorem splitOnChar_eq_single (sep : Char) (l : List Char) (h : sep ∉ l) :
    splitOnChar sep l = [l] := by
  induction l with
  | nil => rfl
  | cons c cs ih =>
    have hc : ¬(c = sep) := fun e => h (e ▸ List.mem_cons_self c cs)
    have hcs : sep ∉ cs := fun m => h (List.mem_cons_of_mem _ m)
    simp only [splitOnChar, ih hcs]
    rw [if_neg hc]

theorem splitOnChar_append (sep : Char) (l1 l2 : List Char) (h : sep ∉ l1) :
    splitOnChar sep (l1 ++ sep :: l2) = l1 :: splitOnChar sep l2 := by
  induction l1 with
  | nil =>
    obtain ⟨g, gs, e⟩ := List.exists_cons_of_ne_nil (splitOnChar_ne_nil sep l2)
    simp [List.nil_append, splitOnChar, e]
  | cons c cs ih =>
    have hc : ¬(c = sep) := fun e => h (e ▸ List.mem_cons_self c cs)
    have hcs : sep ∉ cs := fun m => h (List.mem_cons_of_mem _ m)
    simp only [List.cons_append, splitOnChar, List.append_eq, ih hcs]
    rw [if_neg hc]

theorem mem_natToDigits_ne_x (n : Nat) : 'x' ∉ natToDigits n := by
  intro m
  obtain ⟨d, hd10, hd⟩ := natToDigits_mem n _ m
  exact digitChar_ne_x d hd10 hd.symm

theorem parse_format_resolution (w h : Nat) :
    parse_resolution (format_resolution w h) = some (w, h) := by
  unfold parse_resolution format_resolution natRepr
  have hd : (String.mk (natToDigits w) ++ "x" ++ String.mk (natToDigits h)).data
      = natToDigits w ++ 'x' :: natToDigits h := by
    simp [String.data_append]
  rw [hd, splitOnChar_append _ _ _ (mem_natToDigits_ne_x w),
    splitOnChar_eq_single _ _ (mem_natToDigits_ne_x h)]
  simp [parseNatNum_natToDigits]

/-- Claim C4: writing a "WxH" resolution string through the facade and then
reading the resolution back yields exactly the same string, under the
claim's assumption that the hardware stores the requested width and height
unchanged (`hwAssignResolution`); the write also reports success. -/
theorem resolution_roundtrip (st : FacadeState) (w h : Nat) :
    (set_resolution st (.str (format_resolution w h)) hwAssignResolution).1 = true ∧
    get_resolution
        (set_resolution st (.str (format_resolution w h)) hwAssignResolution).2
      = format_resolution w h := by
  have hp := parse_format_resolution w h
  constructor <;>
    simp [set_resolution, hwAssignResolution, hp, get_resolution]

/-- Closed instance of `resolution_roundtrip`: writing "640x480" at the
default state reads back as "640x480". -/
theorem resolution_roundtrip_witness :
    get_resolution
        (set_resolution st0 (.str (format_resolution 640 480)) hwAssignResolution).2
      = format_resolution 640 480 :=
  (resolution_roundtrip st0 640 480).2

/-- Digits after the decimal point of num/den (0 ≤ num < den), as far as the
expansion goes within the fuel; empty once the remainder is zero. -/
def fracDigits (fuel num den : Nat) : List Char :=
  match fuel with
  | 0 => []
  | f + 1 =>
    if num = 0 then []
    else digitChar (num * 10 / den) :: fracDigits f (num * 10 % den) den

/-- Embedding of Python's str(float(x)) for the rationals this program feeds
it (the framerate choice values, all exact short decimals): sign, integer
part, a dot, then the fractional digits, with a lone 0 after the dot when
the value is integral, so str(float(1)) is "1.0". -/
def pyFloatRepr (q : ℚ) : String :=
  (if q.num < 0 then "-" else "") ++ natRepr (q.num.natAbs / q.den) ++ "." ++
    (match fracDigits 17 (q.num.natAbs % q.den) q.den with
     | [] => "0"
     | ds => String.mk ds)

/-- Embedding of `get_framerate` (source lines 184-188): under the lock,
read the hardware framerate, convert with float() (identity on our rational
model) and format it — the return value is a string, never a number. -/
def get_framerate (st : FacadeState) : String :=
  pyFloatRepr st.camera.framerate

/-- Embedding of `get_exposure_mode` (source lines 202-205). -/
def get_exposure_mode (st : FacadeState) : String :=
  st.camera.exposure_mode

/-- Embedding of the sleep-interval computation of `camera_loop` (source
line 262): wait_interval = 1.0 / float(self.framerate).  A zero divisor
raises ZeroDivisionError in Python, and line 262 sits outside every `try`
block of the loop, so the exception would propagate out of `camera_loop`;
no clamping of the framerate is applied anywhere. -/
def wait_interval (framerate : ℚ) : HwOutcome ℚ :=
  if framerate = 0 then .exn else .ok (1 / framerate)

/-- Claim C2, evaluated at the failing input: at framerate 0 the poller's
sleep-interval computation divides by zero (raises) instead of falling back
to a safe minimum rate, and at every nonzero framerate the interval is
exactly 1/framerate with no positive floor applied. -/
theorem wait_interval_divides_by_zero :
    wait_interval 0 = .exn ∧
    ∀ q : ℚ, ¬(q = 0) → wait_interval q = .ok (1 / q) := by
  refine ⟨rfl, fun q hq => ?_⟩
  simp [wait_interval, hq]

/-- The property values `camera_loop` publishes: the still image, the
resolution, the framerate and the exposure mode. -/
structure Published where
  image : PyVal
  resolution : PyVal
  framerate : PyVal
  exposure_mode : PyVal
  deriving DecidableEq, Repr

/-- The outcome of the four hardware interactions of one `camera_loop`
iteration: the capture (already base64-encoded on success) and the three
settings read-backs, each of which may raise. -/
structure StepResults where
  capture : HwOutcome String
  readRes : HwOutcome (Nat × Nat)
  readFr : HwOutcome ℚ
  readEx : HwOutcome String
  deriving DecidableEq, Repr

/-- One iteration of `camera_loop` (source lines 227-260): four steps, each
inside its own `try`/`except` that logs and falls through, so a failing step
leaves its property at the last good value while the following steps still
run.  A successful read-back publishes the formatted value exactly as
`get_resolution`/`get_framerate`/`get_exposure_mode` return it. -/
def camera_iteration (p : Published) (r : StepResults) : Published :=
  let p1 := match r.capture with
    | .ok img => { p with image := PyVal.str img }
    | .exn => p
  let p2 := match r.readRes with
    | .ok wh => { p1 with resolution := PyVal.str (format_resolution wh.1 wh.2) }
    | .exn => p1
  let p3 := match r.readFr with
    | .ok q => { p2 with framerate := PyVal.str (pyFloatRepr q) }
    | .exn => p2
  match r.readEx with
  | .ok m => { p3 with exposure_mode := PyVal.str m }
  | .exn => p3

/-- `camera_loop` over a finite schedule of iteration outcomes: each
iteration is a total function of its step outcomes, so the loop is a fold
and never dies to a capture or read-back failure. -/
def camera_loop_run (p : Published) (rs : List StepResults) : Published :=
  rs.foldl camera_iteration p

/-- Claim C6: any exception in the capture step or in one of the three
read-back steps of a `camera_loop` iteration is confined to that step: the
affected property keeps its last good value, and the loop always proceeds
to the next iteration (running the loop on one more iteration outcome is
exactly one more total `camera_iteration`, whatever failed before). -/
theorem camera_iteration_keeps_last_good (p : Published) (r : StepResults) :
    (r.capture = .exn → (camera_iteration p r).image = p.image) ∧
    (r.readRes = .exn → (camera_iteration p r).resolution = p.resolution) ∧
    (r.readFr = .exn → (camera_iteration p r).framerate = p.framerate) ∧
    (r.readEx = .exn → (camera_iteration p r).exposure_mode = p.exposure_mode) ∧
    (∀ rs, camera_loop_run p (rs ++ [r]) = camera_iteration (camera_loop_run p rs) r) := by
  obtain ⟨cap, res, fr, ex⟩ := r
  refine ⟨?_, ?_, ?_, ?_, ?_⟩
  · intro h; cases h; cases res <;> cases fr <;> cases ex <;> rfl
  · intro h; cases h; cases cap <;> cases fr <;> cases ex <;> rfl
  · intro h; cases h; cases cap <;> cases res <;> cases ex <;> rfl
  · intro h; cases h; cases cap <;> cases res <;> cases fr <;> rfl
  · intro rs
    simp [camera_loop_run, List.foldl_append]

/-- Closed instance of `camera_iteration_keeps_last_good`: with every step
raising, the published state is untouched. -/
theorem camera_iteration_keeps_last_good_witness :
    (camera_iteration
        { image := .str "", resolution := .str "640x480"
        , framerate := .str "1.0", exposure_mode := .str "auto" }
        { capture := .exn, readRes := .exn, readFr := .exn, readEx := .exn }).image
      = PyVal.str "" :=
  (camera_iteration_keeps_last_good
    { image := .str "", resolution := .str "640x480"
    , framerate := .str "1.0", exposure_mode := .str "auto" }
    { capture := .exn, readRes := .exn, readFr := .exn, readEx := .exn }).1 rfl

/-- The initial framerate property value (source line 62): the numeric
config value, passed to the property cell as-is. -/
def initial_framerate_value (conf : ℚ) : PyVal := .num conf

/-- Claim C10: the initial framerate property value is the numeric config
value and `set_framerate` caches the written value verbatim, yet a poll
iteration publishes the framerate as the decimal string `get_framerate`
builds — so writing the number 1.0 reads back as the string "1.0", which is
a different value: framerate, unlike resolution, does not round-trip in one
representation. -/
theorem framerate_representation_drift (conf : ℚ) (p : Published) (r : StepResults) :
    initial_framerate_value conf = .num conf ∧
    (∀ q, r.readFr = .ok q → (camera_iteration p r).framerate = .str (pyFloatRepr q)) ∧
    (∀ st q, (set_framerate st (.num q) hwAcceptFramerate).2.framerate = .num q) ∧
    get_framerate (set_framerate st0 (.num 1) hwAcceptFramerate).2 = "1.0" ∧
    PyVal.str "1.0" ≠ PyVal.num 1 := by
  refine ⟨rfl, ?_, ?_, ?_, by simp⟩
  · intro q hq
    obtain ⟨cap, res, fr, ex⟩ := r
    cases hq
    cases cap <;> cases res <;> cases ex <;> rfl
  · intro st q
    rfl
  · show pyFloatRepr 1 = "1.0"
    have h1 : natToDigits 1 = [digitChar 1] := by
      rw [natToDigits, dif_pos (by norm_num)]
    simp [pyFloatRepr, natRepr, fracDigits, h1]
    decide

/-- Closed instance of `framerate_representation_drift`: the string "1.0"
the poll publishes is not the number 1.0 that was written. -/
theorem framerate_representation_drift_witness :
    PyVal.str "1.0" ≠ PyVal.num 1 :=
  (framerate_representation_drift 1
    { image := .str "", resolution := .str "640x480"
    , framerate := .num 1, exposure_mode := .str "auto" }
    { capture := .exn, readRes := .exn, readFr := .ok 1, readEx := .exn }).2.2.2.2

/-- A lock-relevant event of one thread: taking `self.camera_lock`
(entering a `with self.camera_lock` block), releasing it (leaving the
block), or touching the hardware handle. -/
inductive Event where
  | acquire
  | release
  | hw (op : String)
  deriving DecidableEq, Repr

/-- A thread identifier for a two-thread interleaving: the camera poller
thread and the serving-layer thread running a remote-write handler. -/
inductive Tid where
  | a
  | b
  deriving DecidableEq, Repr

/-- The lock/hardware events of `get_still_image` (source lines 137-156):
the buffer setup and base64 encoding happen outside the lock and touch no
hardware; the capture is inside the `with self.camera_lock` block. -/
def get_still_image_trace : List Event := [.acquire, .hw "capture", .release]

/-- The lock/hardware events of `get_resolution` (source lines 159-170). -/
def get_resolution_trace : List Event := [.acquire, .hw "read_resolution", .release]

/-- The lock/hardware events of `set_resolution` (source lines 173-181):
the `try` sits inside the `with` block, so the lock is released on both the
success and the exception path after the hardware write. -/
def set_resolution_trace : List Event := [.acquire, .hw "write_resolution", .release]

/-- The lock/hardware events of `get_framerate` (source lines 184-188). -/
def get_framerate_trace : List Event := [.acquire, .hw "read_framerate", .release]

/-- The lock/hardware events of `set_framerate` (source lines 191-199). -/
def set_framerate_trace : List Event := [.acquire, .hw "write_framerate", .release]

/-- The lock/hardware events of `get_exposure_mode` (source lines
202-205). -/
def get_exposure_mode_trace : List Event := [.acquire, .hw "read_exposure_mode", .release]

/-- The lock/hardware events of `set_exposure_mode` (source lines
208-217). -/
def set_exposure_mode_trace : List Event := [.acquire, .hw "write_exposure_mode", .release]

/-- Every hardware operation of the program: the capture and the six
settings accessors. -/
def opTraces : List (List Event) :=
  [ get_still_image_trace, get_resolution_trace, set_resolution_trace
  , get_framerate_trace, set_framerate_trace
  , get_exposure_mode_trace, set_exposure_mode_trace ]

/-- A thread trace is well locked from local lock state `held`: it only
acquires when not holding, only releases when holding, and touches hardware
only while holding. -/
def wellLockedFrom (held : Bool) : List Event → Bool
  | [] => true
  | Event.acquire :: es => !held && wellLockedFrom true es
  | Event.release :: es => held && wellLockedFrom false es
  | Event.hw _ :: es => held && wellLockedFrom held es

/-- `s` is an interleaving of thread a running `xs` and thread b running
`ys`. -/
def isInterleave : List Event → List Event → List (Tid × Event) → Bool
  | xs, ys, [] => xs.isEmpty && ys.isEmpty
  | xs, ys, (t, e) :: s =>
    match t with
    | .a =>
      match xs with
      | [] => false
      | x :: xs2 => x == e && isInterleave xs2 ys s
    | .b =>
      match ys with
      | [] => false
      | y :: ys2 => y == e && isInterleave xs ys2 s

/-- The schedule respects the mutual-exclusion lock whose current holder is
`o`: a thread acquires only a free lock and releases only a lock it
holds. -/
def schedOk : Option Tid → List (Tid × Event) → Bool
  | _, [] => true
  | o, (t, Event.acquire) :: s => o == none && schedOk (some t) s
  | o, (t, Event.release) :: s => o == some t && schedOk none s
  | o, (_, Event.hw _) :: s => schedOk o s

/-- Every hardware event of the schedule is issued by the thread currently
holding the lock: this is the no-interleaving property, since all hardware
events between an acquire and the matching release then belong to the one
holding thread. -/
def hwByHolder : Option Tid → List (Tid × Event) → Bool
  | _, [] => true
  | _, (t, Event.acquire) :: s => hwByHolder (some t) s
  | _, (_, Event.release) :: s => hwByHolder none s
  | o, (t, Event.hw _) :: s => o == some t && hwByHolder o s

/-- Consistency of the global lock holder with the two local lock states. -/
def consist (o : Option Tid) (ha hb : Bool) : Bool :=
  match o with
  | none => !ha && !hb
  | some .a => ha && !hb
  | some .b => !ha && hb

theorem hwByHolder_of_schedOk :
    ∀ (s : List (Tid × Event)) (xs ys : List Event) (ha hb : Bool) (o : Option Tid),
      consist o ha hb = true →
      wellLockedFrom ha xs = true →
      wellLockedFrom hb ys = true →
      isInterleave xs ys s = true →
      schedOk o s = true →
      hwByHolder o s = true := by
  intro s
  induction s with
  | nil => intro xs ys ha hb o _ _ _ _ _; rfl
  | cons te s2 ih =>
    intro xs ys ha hb o hc hx hy hi hs
    obtain ⟨t, e⟩ := te
    cases t with
    | a =>
      cases xs with
      | nil => simp [isInterleave] at hi
      | cons x xs2 =>
        simp only [isInterleave, Bool.and_eq_true, beq_iff_eq] at hi
        obtain ⟨rfl, hi2⟩ := hi
        cases x with
        | acquire =>
          simp only [wellLockedFrom, Bool.and_eq_true, Bool.not_eq_true'] at hx
          obtain ⟨rfl, hx2⟩ := hx
          simp only [schedOk, Bool.and_eq_true, beq_iff_eq] at hs
          obtain ⟨rfl, hs2⟩ := hs
          have hb0 : hb = false := by
            cases hb
            · rfl
            · simp [consist] at hc
          subst hb0
          exact ih xs2 ys true false (some .a) rfl hx2 hy hi2 hs2
        | release =>
          simp only [wellLockedFrom, Bool.and_eq_true] at hx
          obtain ⟨rfl, hx2⟩ := hx
          simp only [schedOk, Bool.and_eq_true, beq_iff_eq] at hs
          obtain ⟨rfl, hs2⟩ := hs
          have hb0 : hb = false := by
            cases hb
            · rfl
            · simp [consist] at hc
          subst hb0
          exact ih xs2 ys false false none rfl hx2 hy hi2 hs2
        | hw op =>
          simp only [wellLockedFrom, Bool.and_eq_true] at hx
          obtain ⟨rfl, hx2⟩ := hx
          simp only [schedOk] at hs
          have ho : o = some .a := by
            cases o with
            | none => simp [consist] at hc
            | some t =>
              cases t
              · rfl
              · simp [consist] at hc
          subst ho
          have hb0 : hb = false := by
            cases hb
            · rfl
            · simp [consist] at hc
          subst hb0
          simp only [hwByHolder, Bool.and_eq_true, beq_iff_eq]
          exact ⟨trivial, ih xs2 ys true false (some .a) rfl hx2 hy hi2 hs⟩
    | b =>
      cases ys with
      | nil => simp [isInterleave] at hi
      | cons y ys2 =>
        simp only [isInterleave, Bool.and_eq_true, beq_iff_eq] at hi
        obtain ⟨rfl, hi2⟩ := hi
        cases y with
        | acquire =>
          simp only [wellLockedFrom, Bool.and_eq_true, Bool.not_eq_true'] at hy
          obtain ⟨rfl, hy2⟩ := hy
          simp only [schedOk, Bool.and_eq_true, beq_iff_eq] at hs
          obtain ⟨rfl, hs2⟩ := hs
          have ha0 : ha = false := by
            cases ha
            · rfl
            · simp [consist] at hc
          subst ha0
          exact ih xs ys2 false true (some .b) rfl hx hy2 hi2 hs2
        | release =>
          simp only [wellLockedFrom, Bool.and_eq_true] at hy
          obtain ⟨rfl, hy2⟩ := hy
          simp only [schedOk, Bool.and_eq_true, beq_iff_eq] at hs
          obtain ⟨rfl, hs2⟩ := hs
          have ha0 : ha = false := by
            cases ha
            · rfl
            · simp [consist] at hc
          subst ha0
          exact ih xs ys2 false false none rfl hx hy2 hi2 hs2
        | hw op =>
          simp only [wellLockedFrom, Bool.and_eq_true] at hy
          obtain ⟨rfl, hy2⟩ := hy
          simp only [schedOk] at hs
          have ho : o = some .b := by
            cases o with
            | none => simp [consist] at hc
            | some t =>
              cases t
              · simp [consist] at hc
              · rfl
          subst ho
          have ha0 : ha = false := by
            cases ha
            · rfl
            · simp [consist] at hc
          subst ha0
          simp only [hwByHolder, Bool.and_eq_true, beq_iff_eq]
          exact ⟨trivial, ih xs ys2 false true (some .b) rfl hx hy2 hi2 hs⟩

/-- Claim C7: each of the seven hardware operations (capture and the six
settings accessors) holds the camera lock for its full duration — from
either thread — and therefore in every lock-respecting interleaving of two
such operations every hardware event is issued by the current lock holder,
so no two hardware operations ever interleave. -/
theorem hardware_ops_mutually_exclusive :
    (∀ tr ∈ opTraces, wellLockedFrom false tr = true) ∧
    (∀ (xs ys : List Event) (s : List (Tid × Event)),
      xs ∈ opTraces → ys ∈ opTraces →
      isInterleave xs ys s = true → schedOk none s = true →
      hwByHolder none s = true) := by
  have hall : ∀ tr ∈ opTraces, wellLockedFrom false tr = true := by decide
  refine ⟨hall, fun xs ys s hxs hys hi hs => ?_⟩
  exact hwByHolder_of_schedOk s xs ys false false none rfl
    (hall xs hxs) (hall ys hys) hi hs

/-- Closed instance of `hardware_ops_mutually_exclusive`: a capture by the
poller followed by a remote resolution write is a lock-respecting schedule,
and indeed every hardware event in it is issued by the lock holder. -/
theorem hardware_ops_mutually_exclusive_witness :
    hwByHolder none
      [ (Tid.a, Event.acquire), (Tid.a, Event.hw "capture"), (Tid.a, Event.release)
      , (Tid.b, Event.acquire), (Tid.b, Event.hw "write_resolution")
      , (Tid.b, Event.release) ] = true :=
  hardware_ops_mutually_exclusive.2 get_still_image_trace set_resolution_trace
    [ (Tid.a, Event.acquire), (Tid.a, Event.hw "capture"), (Tid.a, Event.release)
    , (Tid.b, Event.acquire), (Tid.b, Event.hw "write_resolution")
    , (Tid.b, Event.release) ]
    (by decide) (by decide) (by decide) (by decide)

/-- A step of the `camera_setup` startup sequence (source lines 91-133):
taking or releasing the camera lock, assigning a hardware attribute,
starting the preview, sleeping, or starting a background thread. -/
inductive SetupStep where
  | acquire
  | release
  | hwSet (attr : String) (v : PyVal)
  | hwStartPreview
  | sleep (secs : ℚ)
  | startThread (target : String)
  deriving DecidableEq, Repr

/-- The ordered steps of `camera_setup` (source lines 91-133), with the
config values as parameters: under the lock, apply the configured settings
but with framerate forced to 30.0 and start the preview; release, sleep 3
seconds for warm-up; then under the lock again set the framerate back to the
configured value; finally start the `camera_loop` thread. -/
def camera_setup_trace (resolution rotation iso shutter sensorMode exposureMode : PyVal)
    (framerate : ℚ) : List SetupStep :=
  [ .acquire
  , .hwSet "resolution" resolution
  , .hwSet "rotation" rotation
  , .hwSet "iso" iso
  , .hwSet "framerate" (.num 30)
  , .hwSet "shutter_speed" shutter
  , .hwSet "sensor_mode" sensorMode
  , .hwSet "exposure_mode" exposureMode
  , .hwStartPreview
  , .release
  , .sleep 3
  , .acquire
  , .hwSet "framerate" (.num framerate)
  , .release
  , .startThread "camera_loop" ]

/-- The local lock state after a list of setup steps, starting from
`held`. -/
def heldAfterSteps : Bool → List SetupStep → Bool
  | held, [] => held
  | _, SetupStep.acquire :: es => heldAfterSteps true es
  | _, SetupStep.release :: es => heldAfterSteps false es
  | held, _ :: es => heldAfterSteps held es

/-- The lock is held when step `i` of the trace runs. -/
def heldAtIdx (tr : List SetupStep) (i : Nat) : Bool :=
  heldAfterSteps false (tr.take i)

/-- Claim C8: in the `camera_setup` sequence there are positions
i < j < k < l with: at i the framerate is set to the fixed value 30 under
the lock, at j the fixed 3-second warm-up sleep runs, at k the framerate is
reset to the configured value under the lock, and at l — the one and only
thread start of the sequence — the poller thread is started; so the warm-up
always completes before any poll-loop capture can occur. -/
theorem camera_setup_warmup_order
    (resolution rotation iso shutter sensorMode exposureMode : PyVal) (framerate : ℚ) :
    ∃ i j k l : Nat, i < j ∧ j < k ∧ k < l ∧
      (camera_setup_trace resolution rotation iso shutter sensorMode exposureMode
          framerate).get? i = some (.hwSet "framerate" (.num 30)) ∧
      heldAtIdx (camera_setup_trace resolution rotation iso shutter sensorMode
          exposureMode framerate) i = true ∧
      (camera_setup_trace resolution rotation iso shutter sensorMode exposureMode
          framerate).get? j = some (.sleep 3) ∧
      (camera_setup_trace resolution rotation iso shutter sensorMode exposureMode
          framerate).get? k = some (.hwSet "framerate" (.num framerate)) ∧
      heldAtIdx (camera_setup_trace resolution rotation iso shutter sensorMode
          exposureMode framerate) k = true ∧
      (camera_setup_trace resolution rotation iso shutter sensorMode exposureMode
          framerate).get? l = some (.startThread "camera_loop") ∧
      (∀ m target,
        (camera_setup_trace resolution rotation iso shutter sensorMode exposureMode
            framerate).get? m = some (.startThread target) → m = l) := by
  refine ⟨4, 10, 12, 14, by omega, by omega, by omega, rfl, rfl, rfl, rfl, rfl, rfl, ?_⟩
  intro m target hm
  have hlen : (camera_setup_trace resolution rotation iso shutter sensorMode
      exposureMode framerate).length = 15 := rfl
  have hm15 : m < 15 := by
    by_contra hge
    rw [List.get?_eq_none.mpr (by omega : (camera_setup_trace resolution rotation iso
      shutter sensorMode exposureMode framerate).length ≤ m)] at hm
    exact Option.noConfusion hm
  interval_cases m <;> simp [camera_setup_trace] at hm ⊢

/-- A Thing property as `webthing_setup` declares it: its name and, for
choice-typed properties, its list of choices. -/
structure PropertyDecl where
  name : String
  choices : Option (List String)
  deriving DecidableEq, Repr

/-- The resolution choice list (source lines 277-283). -/
def resolution_choices : List String :=
  ["320x240", "640x480", "800x600", "1024x768", "1296x972", "1640x1232", "3280x2464"]

/-- The framerate choice list (source line 297). -/
def framerate_choices : List String :=
  [ "0.0", "0.1", "0.5", "1.0", "2.0", "3.0", "4.0", "5.0", "6.0", "7.0"
  , "8.0", "9.0", "10.0", "15.0", "20.0", "30.0" ]

/-- The hardware's exposure mode table sorted by its ordering index: the
embedding of Python's sorted(EXPOSURE_MODES, key = EXPOSURE_MODES.__getitem__)
at source line 318, with the external picamera table as a parameter
(an association list mode name → index). -/
def exposure_modes_by_index (modes : List (String × Nat)) : List (String × Nat) :=
  List.insertionSort (fun p q => p.2 ≤ q.2) modes

/-- The choice list handed to the exposureMode property (source line 325). -/
def sorted_exposure_modes (modes : List (String × Nat)) : List String :=
  (exposure_modes_by_index modes).map Prod.fst

/-- Embedding of `webthing_setup` (source lines 268-358): the properties
added to the Thing, in declaration order, with the temperature and humidity
properties added only when si7021 support is enabled in config. -/
def webthing_setup (si7021_enabled : Bool) (modes : List (String × Nat)) :
    List PropertyDecl :=
  [ { name := "resolution", choices := some resolution_choices }
  , { name := "framerate", choices := some framerate_choices }
  , { name := "stillImage", choices := none }
  , { name := "exposureMode", choices := some (sorted_exposure_modes modes) } ]
  ++ (if si7021_enabled then
        [ { name := "temperature", choices := none }
        , { name := "humidity", choices := none } ]
      else [])

/-- Claim C9: the device's resolution choices are exactly the seven listed
resolutions, its framerate choices exactly the sixteen listed rates, its
exposure-mode choices the hardware's full supported set sorted by the
hardware's ordering index (a sorted permutation of the table's names), and
the temperature and humidity properties are present iff sensor support is
enabled. -/
theorem device_choice_sets (enabled : Bool) (modes : List (String × Nat)) :
    (webthing_setup enabled modes).find? (fun p => p.name == "resolution")
      = some { name := "resolution"
             , choices := some [ "320x240", "640x480", "800x600", "1024x768"
                               , "1296x972", "1640x1232", "3280x2464" ] } ∧
    (webthing_setup enabled modes).find? (fun p => p.name == "framerate")
      = some { name := "framerate"
             , choices := some [ "0.0", "0.1", "0.5", "1.0", "2.0", "3.0", "4.0"
                               , "5.0", "6.0", "7.0", "8.0", "9.0", "10.0", "15.0"
                               , "20.0", "30.0" ] } ∧
    (webthing_setup enabled modes).find? (fun p => p.name == "exposureMode")
      = some { name := "exposureMode", choices := some (sorted_exposure_modes modes) } ∧
    (exposure_modes_by_index modes).Pairwise (fun p q => p.2 ≤ q.2) ∧
    (exposure_modes_by_index modes).Perm modes ∧
    (sorted_exposure_modes modes).Perm (modes.map Prod.fst) ∧
    ((webthing_setup enabled modes).any (fun p => p.name == "temperature") = enabled) ∧
    ((webthing_setup enabled modes).any (fun p => p.name == "humidity") = enabled) := by
  haveI : IsTotal (String × Nat) (fun p q => p.2 ≤ q.2) :=
    ⟨fun p q => Nat.le_total p.2 q.2⟩
  haveI : IsTrans (String × Nat) (fun p q => p.2 ≤ q.2) :=
    ⟨fun _ _ _ => Nat.le_trans⟩
  refine ⟨?_, ?_, ?_, ?_, ?_, ?_, ?_, ?_⟩
  · cases enabled <;> rfl
  · cases enabled <;> rfl
  · cases enabled <;> rfl
  · exact List.sorted_insertionSort (fun p q => p.2 ≤ q.2) modes
  · exact List.perm_insertionSort (fun p q => p.2 ≤ q.2) modes
  · exact (List.perm_insertionSort (fun p q => p.2 ≤ q.2) modes).map Prod.fst
  · cases enabled <;> rfl
  · cases enabled <;> rfl

end PiCamWT
